import Mathlib

/-!
Shallow embedding of the CLI-Directory-Cleaner core (`src/logic.rs`,
`src/main.rs`).  Filesystem paths are modelled as lists of name
components; the filesystem state is the set of regular-file paths plus
the set of directories.  The outcomes of the two fallible OS calls used
by the code (`fs::create_dir_all`, `fs::rename`) are supplied by an
environment oracle, so the code's error-handling branches are modelled
exactly as written.
-/

namespace DirCleaner

/-- A filesystem path, as its list of name components. -/
abbrev FsPath := List String

/-- Filesystem state: the set of regular files and the set of directories
(both as lists used as finite sets). -/
structure FS where
  files : List FsPath
  dirs : List FsPath
deriving DecidableEq, Repr

/-- Outcome oracle for the fallible OS calls: which `create_dir_all`
targets fail, and which `rename` sources fail. -/
structure Env where
  failCreate : FsPath → Bool
  failRename : FsPath → Bool

/-- Characters after the last dot of a name, if the name contains a dot. -/
def afterLastDot : List Char → Option (List Char)
  | [] => none
  | c :: cs =>
    match afterLastDot cs with
    | some r => some r
    | none => if c = '.' then some cs else none

/-- Rust `Path::extension` on a file name: the portion after the last dot,
where a dot that is the first character of the name does not count
(so `".txt"` has no extension while `"a.txt"` and `".tar.gz"` do).
A dot in first position never starts an extension, so the search may
simply begin after the first character. -/
def extCore : List Char → Option (List Char)
  | [] => none
  | _ :: rest => afterLastDot rest

/-- Rust `Path::extension` lifted to `String` file names. -/
def fileExtension (name : String) : Option String :=
  (extCore name.toList).map (fun cs => String.mk cs)

/-- Extension of a path: `extension()` of its final component
(Rust's `file_name()` is the final component). -/
def pathExt (p : FsPath) : Option String :=
  p.getLast?.bind fileExtension

/-- Rust `str::to_lowercase` (the extensions handled here are ASCII, where
this agrees with character-wise `Char.toLower`). -/
def lowerStr (s : String) : String :=
  String.mk (s.toList.map Char.toLower)

/-- The ExtensionTag of a path: its lowercased extension
(`logic.rs` line 107: `ext.to_string_lossy().to_lowercase()`). -/
def extTag (p : FsPath) : Option String :=
  (pathExt p).map lowerStr

/-- DestinationPath: `root.join(extension).join(file_name)`
(`logic.rs` lines 112-117). -/
def destPath (p root : FsPath) : Option FsPath :=
  match extTag p, p.getLast? with
  | some t, some n => some (root ++ [t, n])
  | _, _ => none

/-- Steps 1-4 of `organize_file`: the pure classification.  Returns the
ExtensionTag and DestinationPath when the file would be relocated, `none`
when it is skipped (no extension, no file name, or already in place). -/
def moveTarget (p root : FsPath) : Option (String × FsPath) :=
  match extTag p, destPath p root with
  | some t, some d => if d = p then none else some (t, d)
  | _, _ => none

/-- Rust `fs::create_dir_all`: adds the directory and every missing
intermediate segment. -/
def createDirAll (d : FsPath) (fs : FS) : FS :=
  { fs with dirs := d.inits.foldl (fun acc q => if q = [] then acc else acc.insert q) fs.dirs }

/-- Rust `fs::rename`: removes the source file and (over)writes the
destination path. -/
def renameFile (src dst : FsPath) (fs : FS) : FS :=
  { fs with files := (fs.files.erase src).insert dst }

/-- Observable outcome of `organize_file` on one file: the returned
`Option<String>` tag, the move line printed (`[DRY RUN] Would move`
or `Moved`, as a source/destination pair), the path named in an error
notice if one was printed, and the resulting filesystem. -/
structure OrgResult where
  tag : Option String
  moved : Option (FsPath × FsPath)
  errored : Option FsPath
  fs : FS
deriving DecidableEq, Repr

/-- `organize_file` (`logic.rs` lines 103-146).  Steps 1-4 are
`moveTarget`; then: dry-run reports the would-be move and returns the
tag; otherwise `create_dir_all` then `rename`, each failure reported
(naming the destination folder resp. the file) and turned into `None`. -/
def organize_file (env : Env) (file_path root : FsPath) (dry_run : Bool) (fs : FS) : OrgResult :=
  match moveTarget file_path root with
  | none => ⟨none, none, none, fs⟩
  | some (extension, dest_path) =>
    let dest_folder := root ++ [extension]
    if dry_run then
      ⟨some extension, some (file_path, dest_path), none, fs⟩
    else if env.failCreate dest_folder then
      ⟨none, none, some dest_folder, fs⟩
    else
      let fs1 := createDirAll dest_folder fs
      if env.failRename file_path then
        ⟨none, none, some file_path, fs1⟩
      else
        ⟨some extension, some (file_path, dest_path), none, renameFile file_path dest_path fs1⟩

/-- StatsMap: per-ExtensionTag move counts (association list standing for
the `HashMap<String, i32>`). -/
abbrev StatsMap := List (String × Nat)

/-- `*map.entry(ext).or_insert(0) += 1` (`logic.rs` line 90). -/
def bump : StatsMap → String → StatsMap
  | [], k => [(k, 1)]
  | (k', n) :: rest, k =>
    if k' = k then (k', n + 1) :: rest else (k', n) :: bump rest k

/-- The WalkDir collection phase (`logic.rs` lines 61-66): every regular
file whose path lies under the root. -/
def walkFiles (root : FsPath) (fs : FS) : List FsPath :=
  fs.files.filter (fun p => root.isPrefixOf p)

/-- The fan-out loop (`logic.rs` lines 84-93): process each collected
entry with `organize_file`, bumping the StatsMap when a tag is returned.
The mutex-protected increments are modelled by this linearization. -/
def runEntries (env : Env) (root : FsPath) (dry_run : Bool) :
    List FsPath → FS → StatsMap → StatsMap × FS
  | [], fs, stats => (stats, fs)
  | p :: ps, fs, stats =>
    match organize_file env p root dry_run fs with
    | ⟨some ext, _, _, fs'⟩ => runEntries env root dry_run ps fs' (bump stats ext)
    | ⟨none, _, _, fs'⟩ => runEntries env root dry_run ps fs' stats

/-- `process_directory` (`logic.rs` lines 56-99): collect the entries,
process them all, return `Ok(())` — the `Result`'s payload here also
carries the final StatsMap and filesystem so they can be observed. -/
def process_directory (env : Env) (target_path : FsPath) (dry_run : Bool) (fs : FS) :
    Except Unit (StatsMap × FS) :=
  let entries := walkFiles target_path fs
  Except.ok (runEntries env target_path dry_run entries fs [])

/-- `main` (`main.rs` lines 8-16): any `Err` from `process_directory` is
mapped to the failure message, `Ok` exits cleanly. -/
def mainRun (env : Env) (path : FsPath) (dry_run : Bool) (fs : FS) : Except String Unit :=
  match process_directory env path dry_run fs with
  | Except.ok _ => Except.ok ()
  | Except.error _ => Except.error "Failed to process directory"

/-- Sum of all per-tag counts in a StatsMap. -/
def statsTotal (stats : StatsMap) : Nat :=
  (stats.map Prod.snd).sum

/-- Environment in which every filesystem call succeeds. -/
def envOK : Env := ⟨fun _ => false, fun _ => false⟩

/-- The empty filesystem. -/
def emptyFS : FS := ⟨[], []⟩

/-! ### Basic lemmas about `organize_file` -/

/-- Steps 1-4 skip: when `moveTarget` yields nothing, `organize_file`
returns no tag, reports nothing, and leaves the filesystem untouched. -/
theorem org_skip {p root : FsPath} (env : Env) (b : Bool) (fs : FS)
    (h : moveTarget p root = none) :
    organize_file env p root b fs = ⟨none, none, none, fs⟩ := by
  unfold organize_file
  rw [h]

/-- Dry-run branch: the would-be move is reported and the tag returned,
with no filesystem mutation. -/
theorem org_dry {p root : FsPath} {t : String} {d : FsPath} (env : Env) (fs : FS)
    (h : moveTarget p root = some (t, d)) :
    organize_file env p root true fs = ⟨some t, some (p, d), none, fs⟩ := by
  unfold organize_file
  rw [h]
  rfl

/-- Real-run branch, directory creation fails: the error names the
destination folder, no tag, no mutation. -/
theorem org_create_fail {p root : FsPath} {t : String} {d : FsPath} {env : Env} (fs : FS)
    (h : moveTarget p root = some (t, d))
    (hc : env.failCreate (root ++ [t]) = true) :
    organize_file env p root false fs = ⟨none, none, some (root ++ [t]), fs⟩ := by
  unfold organize_file
  rw [h]
  simp [hc]

/-- Real-run branch, rename fails: the error names the file, no tag, only
the destination directory has been created. -/
theorem org_rename_fail {p root : FsPath} {t : String} {d : FsPath} {env : Env} (fs : FS)
    (h : moveTarget p root = some (t, d))
    (hc : env.failCreate (root ++ [t]) = false)
    (hr : env.failRename p = true) :
    organize_file env p root false fs =
      ⟨none, none, some p, createDirAll (root ++ [t]) fs⟩ := by
  unfold organize_file
  rw [h]
  simp [hc, hr]

/-- Real-run branch, both calls succeed: the move is performed and
reported and the tag returned. -/
theorem org_success {p root : FsPath} {t : String} {d : FsPath} {env : Env} (fs : FS)
    (h : moveTarget p root = some (t, d))
    (hc : env.failCreate (root ++ [t]) = false)
    (hr : env.failRename p = false) :
    organize_file env p root false fs =
      ⟨some t, some (p, d), none, renameFile p d (createDirAll (root ++ [t]) fs)⟩ := by
  unfold organize_file
  rw [h]
  simp [hc, hr]

/-- The returned tag does not depend on the filesystem state: it is a
pure function of the file, the root, the mode and the environment. -/
theorem org_tag_fsIndep (env : Env) (p root : FsPath) (b : Bool) (fs₁ fs₂ : FS) :
    (organize_file env p root b fs₁).tag = (organize_file env p root b fs₂).tag := by
  unfold organize_file
  cases h : moveTarget p root with
  | none => rfl
  | some td =>
    obtain ⟨t, d⟩ := td
    by_cases hb : b <;> by_cases hc : env.failCreate (root ++ [t]) <;>
      by_cases hr : env.failRename p <;> simp [hb, hc, hr]

/-- Destructuring of a successful classification. -/
theorem moveTarget_some {p root : FsPath} {t : String} {d : FsPath}
    (h : moveTarget p root = some (t, d)) :
    extTag p = some t ∧ ∃ n, p.getLast? = some n ∧ d = root ++ [t, n] ∧ d ≠ p := by
  unfold moveTarget destPath at h
  cases he : extTag p <;> rw [he] at h
  case none => simp at h
  case some t' =>
  cases hn : p.getLast? <;> rw [hn] at h
  case none => simp at h
  case some n =>
  dsimp only at h
  split at h
  · simp at h
  · rename_i hdp
    simp only [Option.some.injEq, Prod.mk.injEq] at h
    obtain ⟨rfl, rfl⟩ := h
    exact ⟨rfl, n, rfl, rfl, hdp⟩

/-- A destination produced by `moveTarget` is itself already in place:
its ExtensionTag is the subfolder it sits in, so it is skipped. -/
theorem moveTarget_dest {p root : FsPath} {t : String} {d : FsPath}
    (h : moveTarget p root = some (t, d)) :
    moveTarget d root = none := by
  obtain ⟨he, n, hn, rfl, _⟩ := moveTarget_some h
  have hlast : (root ++ [t, n]).getLast? = some n := by
    rw [show root ++ [t, n] = (root ++ [t]) ++ [n] by simp]
    exact List.getLast?_concat _
  have he' : (fileExtension n).map lowerStr = some t := by
    unfold extTag pathExt at he
    rw [hn] at he
    simpa using he
  have hext : extTag (root ++ [t, n]) = some t := by
    unfold extTag pathExt
    rw [hlast]
    simpa using he'
  have hdp : destPath (root ++ [t, n]) root = some (root ++ [t, n]) := by
    unfold destPath
    rw [hext, hlast]
  unfold moveTarget
  rw [hext, hdp]
  simp

/-- Unfolding equation for one fan-out step. -/
theorem runEntries_cons (env : Env) (root : FsPath) (b : Bool) (p : FsPath)
    (ps : List FsPath) (fs : FS) (stats : StatsMap) :
    runEntries env root b (p :: ps) fs stats =
      match organize_file env p root b fs with
      | ⟨some ext, _, _, fs'⟩ => runEntries env root b ps fs' (bump stats ext)
      | ⟨none, _, _, fs'⟩ => runEntries env root b ps fs' stats := rfl

/-- A run over entries that are all skipped changes nothing: no stats,
no filesystem mutation. -/
theorem runEntries_all_skip (env : Env) (root : FsPath) (b : Bool) (es : List FsPath) :
    ∀ (fs : FS) (stats : StatsMap),
      (∀ q ∈ es, moveTarget q root = none) →
      runEntries env root b es fs stats = (stats, fs) := by
  induction es with
  | nil => intro fs stats _; rfl
  | cons p ps ih =>
    intro fs stats h
    rw [runEntries_cons, org_skip env b fs (h p (List.mem_cons_self p ps))]
    exact ih fs stats (fun q hq => h q (List.mem_cons_of_mem _ hq))

/-- Each `bump` adds exactly one to the total count. -/
theorem statsTotal_bump (stats : StatsMap) (k : String) :
    statsTotal (bump stats k) = statsTotal stats + 1 := by
  induction stats with
  | nil => rfl
  | cons q rest ih =>
    obtain ⟨k', n⟩ := q
    by_cases hk : k' = k <;> simp [bump, hk, statsTotal] at ih ⊢ <;> omega

/-- The total StatsMap count after a run equals the number of entries for
which `organize_file` returns a tag (a pure, filesystem-independent
predicate, here evaluated on the empty filesystem). -/
theorem runEntries_total (env : Env) (root : FsPath) (b : Bool) (es : List FsPath) :
    ∀ (fs : FS) (stats : StatsMap),
      statsTotal (runEntries env root b es fs stats).1 =
        statsTotal stats +
          es.countP (fun p => ((organize_file env p root b emptyFS).tag).isSome) := by
  induction es with
  | nil => intro fs stats; simp [runEntries]
  | cons p ps ih =>
    intro fs stats
    rw [runEntries_cons]
    have htag := org_tag_fsIndep env p root b emptyFS fs
    cases hrc : organize_file env p root b fs with
    | mk tag moved errored fs' =>
      rw [hrc] at htag
      cases tag with
      | some ext =>
        dsimp only
        rw [ih, statsTotal_bump, List.countP_cons]
        simp [htag]
        omega
      | none =>
        dsimp only
        rw [ih, List.countP_cons]
        simp [htag]

/-- With all filesystem calls succeeding, a dry run and a real run over
the same entry list produce the same StatsMap, from any starting states. -/
theorem runEntries_stats_dry_real (env : Env) (root : FsPath)
    (hc : ∀ d, env.failCreate d = false) (hr : ∀ q, env.failRename q = false)
    (es : List FsPath) :
    ∀ (fs₁ fs₂ : FS) (stats : StatsMap),
      (runEntries env root true es fs₁ stats).1 =
        (runEntries env root false es fs₂ stats).1 := by
  induction es with
  | nil => intros; rfl
  | cons p ps ih =>
    intro fs₁ fs₂ stats
    rw [runEntries_cons, runEntries_cons]
    cases hmt : moveTarget p root with
    | none =>
      rw [org_skip env true fs₁ hmt, org_skip env false fs₂ hmt]
      exact ih fs₁ fs₂ stats
    | some td =>
      obtain ⟨t, d⟩ := td
      rw [org_dry env fs₁ hmt, org_success fs₂ hmt (hc _) (hr _)]
      exact ih _ _ _

/-- Invariant for a failure-free real run: if every file under the root
that still needs a move occurs in the remaining entry list at least as
often as in the filesystem, then after the run no file under the root
needs a move any more. -/
theorem runEntries_settles (env : Env) (root : FsPath)
    (hc : ∀ d, env.failCreate d = false) (hr : ∀ q, env.failRename q = false)
    (es : List FsPath) :
    ∀ (fs : FS) (stats : StatsMap),
      (∀ q : FsPath, root.isPrefixOf q = true → moveTarget q root ≠ none →
        List.count q fs.files ≤ List.count q es) →
      ∀ q : FsPath, root.isPrefixOf q = true → moveTarget q root ≠ none →
        List.count q (runEntries env root false es fs stats).2.files = 0 := by
  induction es with
  | nil =>
    intro fs stats hinv q hu hq
    simpa using hinv q hu hq
  | cons p ps ih =>
    intro fs stats hinv q hu hq
    rw [runEntries_cons]
    cases hmt : moveTarget p root with
    | none =>
      rw [org_skip env false fs hmt]
      refine ih fs stats ?_ q hu hq
      intro q' hu' hq'
      have hne : q' ≠ p := fun h => hq' (h ▸ hmt)
      have hle := hinv q' hu' hq'
      rwa [List.count_cons_of_ne hne] at hle
    | some td =>
      obtain ⟨t, d⟩ := td
      rw [org_success fs hmt (hc _) (hr _)]
      refine ih _ (bump stats t) ?_ q hu hq
      intro q' hu' hq'
      have hqd : q' ≠ d := fun h => hq' (h ▸ moveTarget_dest hmt)
      show List.count q' (renameFile p d (createDirAll (root ++ [t]) fs)).files ≤ _
      have hins : List.count q' ((fs.files.erase p).insert d) =
          List.count q' (fs.files.erase p) := by
        by_cases hm : d ∈ fs.files.erase p
        · rw [List.insert_of_mem hm]
        · rw [List.insert_of_not_mem hm, List.count_cons_of_ne hqd]
      show List.count q' ((fs.files.erase p).insert d) ≤ _
      rw [hins]
      by_cases hqp : q' = p
      · subst hqp
        rw [List.count_erase_self]
        have hle := hinv q' hu' hq'
        rw [List.count_cons_self] at hle
        omega
      · rw [List.count_erase_of_ne hqp]
        have hle := hinv q' hu' hq'
        rwa [List.count_cons_of_ne hqp] at hle

/-- A name with no dot has no part after a last dot. -/
theorem afterLastDot_none (cs : List Char) (h : ∀ c ∈ cs, c ≠ '.') :
    afterLastDot cs = none := by
  induction cs with
  | nil => rfl
  | cons c cs' ih =>
    unfold afterLastDot
    rw [ih (fun c' hc' => h c' (List.mem_cons_of_mem _ hc'))]
    simp [h c (List.mem_cons_self c cs')]

/-- A file with no extension is never classified. -/
theorem moveTarget_none_of_noExt {p : FsPath} (root : FsPath) (h : pathExt p = none) :
    moveTarget p root = none := by
  have he : extTag p = none := by
    unfold extTag
    rw [h]
    rfl
  unfold moveTarget
  rw [he]

/-- The tag `organize_file` returns is either nothing or the file's
ExtensionTag — the StatsMap is only ever keyed by ExtensionTags. -/
theorem org_tag_none_or_extTag (env : Env) (p root : FsPath) (b : Bool) (fs : FS) :
    (organize_file env p root b fs).tag = none ∨
      (organize_file env p root b fs).tag = extTag p := by
  cases hmt : moveTarget p root with
  | none => left; rw [org_skip env b fs hmt]
  | some td =>
    obtain ⟨t, d⟩ := td
    have het := (moveTarget_some hmt).1
    cases b with
    | true => right; rw [org_dry env fs hmt]; exact het.symm
    | false =>
      by_cases hcf : env.failCreate (root ++ [t]) = true
      · left; rw [org_create_fail fs hmt hcf]
      · have hcf' : env.failCreate (root ++ [t]) = false := by simpa using hcf
        by_cases hrf : env.failRename p = true
        · left; rw [org_rename_fail fs hmt hcf' hrf]
        · have hrf' : env.failRename p = false := by simpa using hrf
          right; rw [org_success fs hmt hcf' hrf']; exact het.symm

/-- After a failure-free real run, every file found by a fresh walk of
the root is already settled. -/
theorem run1_all_settled (env : Env) (root : FsPath) (fs : FS)
    (hc : ∀ d, env.failCreate d = false) (hr : ∀ q, env.failRename q = false) :
    ∀ q ∈ walkFiles root (runEntries env root false (walkFiles root fs) fs []).2,
      moveTarget q root = none := by
  intro q hq
  by_contra hne
  unfold walkFiles at hq
  have hmem := List.mem_filter.mp hq
  have hinv : ∀ q' : FsPath, root.isPrefixOf q' = true → moveTarget q' root ≠ none →
      List.count q' fs.files ≤ List.count q' (walkFiles root fs) := by
    intro q' hu' _
    unfold walkFiles
    exact Nat.le_of_eq (List.count_filter hu').symm
  have h0 := runEntries_settles env root hc hr (walkFiles root fs) fs [] hinv q hmem.2 hne
  have hpos := List.count_pos_iff.mpr hmem.1
  unfold walkFiles at h0
  omega

/-! ### Claim theorems -/

/-- Claim C1, counterexample: on a root that does not exist (the
filesystem is empty, so `["missing"]` is neither an existing directory
nor a file), `process_directory` does NOT surface a failure outcome — it
returns the success variant with an empty StatsMap, contradicting the
claimed catastrophic-setup-error short-circuit. -/
theorem C1_invalid_root_counterexample :
    process_directory envOK ["missing"] false emptyFS = Except.ok ([], emptyFS) ∧
    process_directory envOK ["missing"] false emptyFS ≠ Except.error () := by
  constructor
  · rfl
  · intro h
    rw [show process_directory envOK ["missing"] false emptyFS =
      Except.ok ([], emptyFS) from rfl] at h
    exact Except.noConfusion h

/-- Claim C1, amended: `process_directory` never produces its error
variant on any input — whatever the Root (nonexistent, a regular file,
or a directory) and whatever per-file failures occur, the caller always
sees success.  When no regular file lies under the Root (in particular
when the Root does not exist), the run silently processes zero files and
returns an empty StatsMap.  (A Root that is itself a regular file is
walked as that single file, so its run can report moves — but it, too,
succeeds.) -/
theorem C1_no_failure_outcome (env : Env) (root : FsPath) (b : Bool) (fs : FS) :
    process_directory env root b fs ≠ Except.error () ∧
    mainRun env root b fs = Except.ok () ∧
    ((∀ p ∈ fs.files, root.isPrefixOf p = false) →
      process_directory env root b fs = Except.ok ([], fs)) := by
  refine ⟨fun hbad => ?_, rfl, fun h => ?_⟩
  · rw [show process_directory env root b fs =
        Except.ok (runEntries env root b (walkFiles root fs) fs []) from rfl] at hbad
    exact Except.noConfusion hbad
  · have hw : walkFiles root fs = [] := by
      unfold walkFiles
      exact List.filter_eq_nil_iff.mpr (fun p hp => by simp [h p hp])
    unfold process_directory
    rw [hw]
    rfl

/-- Witness for C1's amended theorem at a concrete invalid root, with the
empty-run hypothesis discharged concretely. -/
theorem C1_no_failure_outcome_witness :
    process_directory envOK ["gone"] false ⟨[["other", "x.txt"]], [["other"]]⟩ ≠
      Except.error () ∧
    mainRun envOK ["gone"] false ⟨[["other", "x.txt"]], [["other"]]⟩ = Except.ok () ∧
    process_directory envOK ["gone"] false ⟨[["other", "x.txt"]], [["other"]]⟩ =
      Except.ok ([], ⟨[["other", "x.txt"]], [["other"]]⟩) :=
  ⟨(C1_no_failure_outcome envOK ["gone"] false ⟨[["other", "x.txt"]], [["other"]]⟩).1,
    (C1_no_failure_outcome envOK ["gone"] false ⟨[["other", "x.txt"]], [["other"]]⟩).2.1,
    (C1_no_failure_outcome envOK ["gone"] false ⟨[["other", "x.txt"]], [["other"]]⟩).2.2
      (by decide)⟩

/-- Claim C5: a file path with no extension gets no tag, no report, no
error, no filesystem action, and contributes nothing to the StatsMap,
in both dry-run and real mode. -/
theorem C5_extensionless_skip (env : Env) (p root : FsPath) (fs : FS) (b : Bool)
    (stats : StatsMap) (h : pathExt p = none) :
    organize_file env p root b fs = ⟨none, none, none, fs⟩ ∧
    runEntries env root b [p] fs stats = (stats, fs) := by
  have hmt := moveTarget_none_of_noExt root h
  refine ⟨org_skip env b fs hmt, ?_⟩
  rw [runEntries_cons, org_skip env b fs hmt]
  rfl

/-- Witness for C5 on the extensionless file `README`, in both modes. -/
theorem C5_extensionless_skip_witness :
    (organize_file envOK ["r", "README"] ["r"] false ⟨[["r", "README"]], [["r"]]⟩ =
        ⟨none, none, none, ⟨[["r", "README"]], [["r"]]⟩⟩ ∧
      runEntries envOK ["r"] false [["r", "README"]] ⟨[["r", "README"]], [["r"]]⟩ [] =
        ([], ⟨[["r", "README"]], [["r"]]⟩)) ∧
    (organize_file envOK ["r", "README"] ["r"] true ⟨[["r", "README"]], [["r"]]⟩ =
        ⟨none, none, none, ⟨[["r", "README"]], [["r"]]⟩⟩ ∧
      runEntries envOK ["r"] true [["r", "README"]] ⟨[["r", "README"]], [["r"]]⟩ [] =
        ([], ⟨[["r", "README"]], [["r"]]⟩)) :=
  ⟨C5_extensionless_skip envOK ["r", "README"] ["r"] ⟨[["r", "README"]], [["r"]]⟩
      false [] (by decide),
    C5_extensionless_skip envOK ["r", "README"] ["r"] ⟨[["r", "README"]], [["r"]]⟩
      true [] (by decide)⟩

/-- Claim C7: a file already at its DestinationPath is skipped — no tag,
no report, no error, no rename or directory creation, no StatsMap entry,
in both dry-run and real mode. -/
theorem C7_noop_correct_placement (env : Env) (p root : FsPath) (fs : FS) (b : Bool)
    (stats : StatsMap) (h : destPath p root = some p) :
    organize_file env p root b fs = ⟨none, none, none, fs⟩ ∧
    runEntries env root b [p] fs stats = (stats, fs) := by
  have hmt : moveTarget p root = none := by
    cases he : extTag p with
    | none =>
      unfold destPath at h
      rw [he] at h
      simp at h
    | some t =>
      unfold moveTarget
      rw [he, h]
      simp
  refine ⟨org_skip env b fs hmt, ?_⟩
  rw [runEntries_cons, org_skip env b fs hmt]
  rfl

/-- Witness for C7: `r/pdf/x.pdf` under root `r` is already in place. -/
theorem C7_noop_correct_placement_witness :
    (organize_file envOK ["r", "pdf", "x.pdf"] ["r"] false
        ⟨[["r", "pdf", "x.pdf"]], [["r"], ["r", "pdf"]]⟩ =
      ⟨none, none, none, ⟨[["r", "pdf", "x.pdf"]], [["r"], ["r", "pdf"]]⟩⟩) ∧
    runEntries envOK ["r"] false [["r", "pdf", "x.pdf"]]
        ⟨[["r", "pdf", "x.pdf"]], [["r"], ["r", "pdf"]]⟩ [] =
      ([], ⟨[["r", "pdf", "x.pdf"]], [["r"], ["r", "pdf"]]⟩) :=
  C7_noop_correct_placement envOK ["r", "pdf", "x.pdf"] ["r"]
    ⟨[["r", "pdf", "x.pdf"]], [["r"], ["r", "pdf"]]⟩ false [] (by decide)

/-- Claim C10: the error variant of `process_directory`'s result is never
produced — every call returns `Ok`, so `main`'s non-zero exit mapping is
unreachable and `mainRun` always succeeds. -/
theorem C10_process_directory_never_errs (env : Env) (path : FsPath) (b : Bool) (fs : FS) :
    process_directory env path b fs =
      Except.ok (runEntries env path b (walkFiles path fs) fs []) ∧
    mainRun env path b fs = Except.ok () :=
  ⟨rfl, rfl⟩

/-- Claim C2: idempotence.  If a non-dry-run over `root` completes with
no per-file errors (no filesystem call fails), a second non-dry-run on
the resulting tree moves nothing: it returns an empty StatsMap and
leaves the filesystem exactly as the first run left it. -/
theorem C2_idempotent_rerun (env : Env) (root : FsPath) (fs : FS)
    (hc : ∀ d, env.failCreate d = false) (hr : ∀ q, env.failRename q = false)
    (stats₁ : StatsMap) (fs₁ : FS)
    (h1 : process_directory env root false fs = Except.ok (stats₁, fs₁)) :
    process_directory env root false fs₁ = Except.ok ([], fs₁) := by
  have hfs₁ : fs₁ = (runEntries env root false (walkFiles root fs) fs []).2 := by
    unfold process_directory at h1
    injection h1 with h2
    exact (congrArg Prod.snd h2).symm
  subst hfs₁
  have hset := runEntries_all_skip env root false
    (walkFiles root (runEntries env root false (walkFiles root fs) fs []).2)
    (runEntries env root false (walkFiles root fs) fs []).2 []
    (run1_all_settled env root fs hc hr)
  show Except.ok (runEntries env root false
    (walkFiles root (runEntries env root false (walkFiles root fs) fs []).2)
    (runEntries env root false (walkFiles root fs) fs []).2 []) = _
  rw [hset]

/-- Witness for C2: a first run over `r` (one nested `a.TXT`, one
top-level `b.txt`, one extensionless `README`) produces a tree on which
the second run is an empty no-op. -/
theorem C2_idempotent_rerun_witness :
    process_directory envOK ["r"] false
        ⟨[["r", "txt", "b.txt"], ["r", "txt", "a.TXT"], ["r", "README"]],
          [["r", "txt"], ["r"], ["r", "docs"]]⟩ =
      Except.ok ([],
        ⟨[["r", "txt", "b.txt"], ["r", "txt", "a.TXT"], ["r", "README"]],
          [["r", "txt"], ["r"], ["r", "docs"]]⟩) :=
  C2_idempotent_rerun envOK ["r"]
    ⟨[["r", "docs", "a.TXT"], ["r", "b.txt"], ["r", "README"]], [["r"], ["r", "docs"]]⟩
    (fun _ => rfl) (fun _ => rfl) [("txt", 2)]
    ⟨[["r", "txt", "b.txt"], ["r", "txt", "a.TXT"], ["r", "README"]],
      [["r", "txt"], ["r"], ["r", "docs"]]⟩
    rfl

/-- Claim C3: dry-run equivalence.  A dry run mutates nothing, and when
the real run's filesystem calls would succeed it reports exactly the
same source/destination pair, returns exactly the same tag, and a whole
dry run produces the same StatsMap as a real run on the same tree. -/
theorem C3_dry_run_equivalence (env : Env) (p root : FsPath) (fs : FS)
    (es : List FsPath) (stats : StatsMap)
    (hc : ∀ d, env.failCreate d = false) (hr : ∀ q, env.failRename q = false) :
    (organize_file env p root true fs).fs = fs ∧
    (organize_file env p root true fs).tag = (organize_file env p root false fs).tag ∧
    (organize_file env p root true fs).moved = (organize_file env p root false fs).moved ∧
    (runEntries env root true es fs stats).1 = (runEntries env root false es fs stats).1 := by
  refine ⟨?_, ?_, ?_, runEntries_stats_dry_real env root hc hr es fs fs stats⟩
  · cases hmt : moveTarget p root with
    | none => rw [org_skip env true fs hmt]
    | some td => obtain ⟨t, d⟩ := td; rw [org_dry env fs hmt]
  · cases hmt : moveTarget p root with
    | none => rw [org_skip env true fs hmt, org_skip env false fs hmt]
    | some td =>
      obtain ⟨t, d⟩ := td
      rw [org_dry env fs hmt, org_success fs hmt (hc _) (hr _)]
  · cases hmt : moveTarget p root with
    | none => rw [org_skip env true fs hmt, org_skip env false fs hmt]
    | some td =>
      obtain ⟨t, d⟩ := td
      rw [org_dry env fs hmt, org_success fs hmt (hc _) (hr _)]

/-- Witness for C3 on a concrete file that needs a move. -/
theorem C3_dry_run_equivalence_witness :
    (organize_file envOK ["r", "a.pdf"] ["r"] true ⟨[["r", "a.pdf"]], [["r"]]⟩).fs =
        ⟨[["r", "a.pdf"]], [["r"]]⟩ ∧
    (organize_file envOK ["r", "a.pdf"] ["r"] true ⟨[["r", "a.pdf"]], [["r"]]⟩).tag =
      (organize_file envOK ["r", "a.pdf"] ["r"] false ⟨[["r", "a.pdf"]], [["r"]]⟩).tag ∧
    (organize_file envOK ["r", "a.pdf"] ["r"] true ⟨[["r", "a.pdf"]], [["r"]]⟩).moved =
      (organize_file envOK ["r", "a.pdf"] ["r"] false ⟨[["r", "a.pdf"]], [["r"]]⟩).moved ∧
    (runEntries envOK ["r"] true [["r", "a.pdf"]] ⟨[["r", "a.pdf"]], [["r"]]⟩ []).1 =
      (runEntries envOK ["r"] false [["r", "a.pdf"]] ⟨[["r", "a.pdf"]], [["r"]]⟩ []).1 :=
  C3_dry_run_equivalence envOK ["r", "a.pdf"] ["r"] ⟨[["r", "a.pdf"]], [["r"]]⟩
    [["r", "a.pdf"]] [] (fun _ => rfl) (fun _ => rfl)

/-- Claim C4: counting invariant.  The total count across all
ExtensionTags in the final StatsMap equals exactly the number of
discovered files for which `organize_file` returned a tag (a pure
per-file predicate, independent of the filesystem state at processing
time, so each such file contributes exactly one increment). -/
theorem C4_stats_counting_invariant (env : Env) (root : FsPath) (b : Bool) (fs : FS)
    (stats : StatsMap) (fs' : FS)
    (h : process_directory env root b fs = Except.ok (stats, fs')) :
    statsTotal stats =
      (walkFiles root fs).countP
        (fun p => ((organize_file env p root b emptyFS).tag).isSome) := by
  have h2 : runEntries env root b (walkFiles root fs) fs [] = (stats, fs') := by
    unfold process_directory at h
    injection h with h2
  have ht := runEntries_total env root b (walkFiles root fs) fs []
  rw [h2] at ht
  simpa [statsTotal] using ht

/-- Witness for C4: two movable files and an extensionless one give a
total of two, matching the per-file tag predicate. -/
theorem C4_stats_counting_invariant_witness :
    statsTotal [("txt", 2)] =
      (walkFiles ["r"]
          ⟨[["r", "docs", "a.TXT"], ["r", "b.txt"], ["r", "README"]],
            [["r"], ["r", "docs"]]⟩).countP
        (fun p => ((organize_file envOK p ["r"] false emptyFS).tag).isSome) :=
  C4_stats_counting_invariant envOK ["r"] false
    ⟨[["r", "docs", "a.TXT"], ["r", "b.txt"], ["r", "README"]], [["r"], ["r", "docs"]]⟩
    [("txt", 2)]
    ⟨[["r", "txt", "b.txt"], ["r", "txt", "a.TXT"], ["r", "README"]],
      [["r", "txt"], ["r"], ["r", "docs"]]⟩
    rfl

/-- Claim C6: case-insensitive bucketing.  Files whose extensions agree
up to case have the same ExtensionTag; a classified file's destination
subfolder is `root ++ [tag]`; and the tag `organize_file` returns (the
StatsMap key) is always the file's ExtensionTag when present. -/
theorem C6_case_insensitive_bucketing (root p₁ p₂ : FsPath) (e₁ e₂ : String)
    (h₁ : pathExt p₁ = some e₁) (h₂ : pathExt p₂ = some e₂)
    (hcase : lowerStr e₁ = lowerStr e₂) :
    extTag p₁ = extTag p₂ ∧
    (∀ t d, moveTarget p₁ root = some (t, d) →
      t = lowerStr e₁ ∧ ∃ n, d = root ++ [t, n]) ∧
    (∀ t d, moveTarget p₂ root = some (t, d) →
      t = lowerStr e₂ ∧ ∃ n, d = root ++ [t, n]) ∧
    (∀ env fs b, (organize_file env p₁ root b fs).tag = none ∨
      (organize_file env p₁ root b fs).tag = extTag p₁) ∧
    (∀ env fs b, (organize_file env p₂ root b fs).tag = none ∨
      (organize_file env p₂ root b fs).tag = extTag p₂) := by
  have het₁ : extTag p₁ = some (lowerStr e₁) := by
    unfold extTag
    rw [h₁]
    rfl
  have het₂ : extTag p₂ = some (lowerStr e₂) := by
    unfold extTag
    rw [h₂]
    rfl
  refine ⟨by rw [het₁, het₂, hcase], ?_, ?_,
    fun env fs b => org_tag_none_or_extTag env p₁ root b fs,
    fun env fs b => org_tag_none_or_extTag env p₂ root b fs⟩
  · intro t d hmt
    obtain ⟨he, n, _, hd, _⟩ := moveTarget_some hmt
    rw [het₁] at he
    exact ⟨(Option.some.inj he).symm, n, hd⟩
  · intro t d hmt
    obtain ⟨he, n, _, hd, _⟩ := moveTarget_some hmt
    rw [het₂] at he
    exact ⟨(Option.some.inj he).symm, n, hd⟩

/-- Witness for C6: `a.TXT` and `b.txt` share the tag `txt`. -/
theorem C6_case_insensitive_bucketing_witness :
    extTag ["r", "a.TXT"] = extTag ["r", "sub", "b.txt"] ∧
    ((organize_file envOK ["r", "a.TXT"] ["r"] false emptyFS).tag = none ∨
      (organize_file envOK ["r", "a.TXT"] ["r"] false emptyFS).tag =
        extTag ["r", "a.TXT"]) :=
  ⟨(C6_case_insensitive_bucketing ["r"] ["r", "a.TXT"] ["r", "sub", "b.txt"]
      "TXT" "txt" (by decide) (by decide) (by decide)).1,
    (C6_case_insensitive_bucketing ["r"] ["r", "a.TXT"] ["r", "sub", "b.txt"]
      "TXT" "txt" (by decide) (by decide) (by decide)).2.2.2.1 envOK emptyFS false⟩

/-- Claim C8, counterexample: when directory creation fails, the error
notice printed by `organize_file` names the destination directory
(`r/txt`), not the failing file (`r/a.txt`) — so the claim's "reports an
error naming that file" does not hold on the directory-creation path. -/
theorem C8_error_names_counterexample :
    (organize_file ⟨fun d => decide (d = ["r", "txt"]), fun _ => false⟩
        ["r", "a.txt"] ["r"] false ⟨[["r", "a.txt"]], [["r"]]⟩).errored =
      some ["r", "txt"] ∧
    (organize_file ⟨fun d => decide (d = ["r", "txt"]), fun _ => false⟩
        ["r", "a.txt"] ["r"] false ⟨[["r", "a.txt"]], [["r"]]⟩).errored ≠
      some ["r", "a.txt"] := by decide

/-- Claim C8, amended: if directory creation or rename fails for a file
in a real run, `organize_file` reports an error (naming the destination
directory on a creation failure, the file itself on a rename failure)
and returns no tag, so the file is omitted from the StatsMap; processing
simply continues with the remaining entries, and no other file's outcome
is affected (the tag of every file is independent of the filesystem
state left behind). -/
theorem C8_partial_failure_isolation (env : Env) (p root : FsPath) (t : String)
    (d : FsPath) (fs : FS) (es : List FsPath) (stats : StatsMap)
    (hmt : moveTarget p root = some (t, d)) :
    (env.failCreate (root ++ [t]) = true →
      organize_file env p root false fs = ⟨none, none, some (root ++ [t]), fs⟩ ∧
      runEntries env root false (p :: es) fs stats =
        runEntries env root false es fs stats) ∧
    (env.failCreate (root ++ [t]) = false → env.failRename p = true →
      organize_file env p root false fs =
        ⟨none, none, some p, createDirAll (root ++ [t]) fs⟩ ∧
      runEntries env root false (p :: es) fs stats =
        runEntries env root false es (createDirAll (root ++ [t]) fs) stats) ∧
    (∀ q fs₁ fs₂, (organize_file env q root false fs₁).tag =
      (organize_file env q root false fs₂).tag) := by
  refine ⟨fun hcf => ⟨org_create_fail fs hmt hcf, ?_⟩,
    fun hcf hrf => ⟨org_rename_fail fs hmt hcf hrf, ?_⟩,
    fun q fs₁ fs₂ => org_tag_fsIndep env q root false fs₁ fs₂⟩
  · rw [runEntries_cons, org_create_fail fs hmt hcf]
  · rw [runEntries_cons, org_rename_fail fs hmt hcf hrf]

/-- Witness for C8: creation of `r/txt` fails for `r/a.txt`; the error
names the directory, the file is skipped, and the run continues with the
sibling entry untouched. -/
theorem C8_partial_failure_isolation_witness :
    organize_file ⟨fun d => decide (d = ["r", "txt"]), fun _ => false⟩
        ["r", "a.txt"] ["r"] false ⟨[["r", "a.txt"], ["r", "b.pdf"]], [["r"]]⟩ =
      ⟨none, none, some ["r", "txt"], ⟨[["r", "a.txt"], ["r", "b.pdf"]], [["r"]]⟩⟩ ∧
    runEntries ⟨fun d => decide (d = ["r", "txt"]), fun _ => false⟩ ["r"] false
        [["r", "a.txt"], ["r", "b.pdf"]]
        ⟨[["r", "a.txt"], ["r", "b.pdf"]], [["r"]]⟩ [] =
      runEntries ⟨fun d => decide (d = ["r", "txt"]), fun _ => false⟩ ["r"] false
        [["r", "b.pdf"]] ⟨[["r", "a.txt"], ["r", "b.pdf"]], [["r"]]⟩ [] :=
  (C8_partial_failure_isolation ⟨fun d => decide (d = ["r", "txt"]), fun _ => false⟩
    ["r", "a.txt"] ["r"] "txt" ["r", "txt", "a.txt"]
    ⟨[["r", "a.txt"], ["r", "b.pdf"]], [["r"]]⟩ [["r", "b.pdf"]] []
    (by decide)).1 (by decide)

/-- Claim C9, counterexample: the file named `.txt` (extension with an
empty base name, in the claim's terms) has NO extension under the path
semantics the code uses — it is skipped entirely, not classified and not
moved. -/
theorem C9_dotfile_counterexample :
    pathExt ["r", ".txt"] = none ∧
    organize_file envOK ["r", ".txt"] ["r"] false ⟨[["r", ".txt"]], [["r"]]⟩ =
      ⟨none, none, none, ⟨[["r", ".txt"]], [["r"]]⟩⟩ := by decide

/-- Claim C9, amended: a file whose name starts with a dot and contains
no further dot (such as `.txt`) yields no ExtensionTag and is skipped by
`organize_file` — no tag, no report, no error, no filesystem change. -/
theorem C9_dotfile_skipped (cs : List Char) (hdot : ∀ c ∈ cs, c ≠ '.')
    (env : Env) (pre root : FsPath) (fs : FS) (b : Bool) :
    fileExtension (String.mk ('.' :: cs)) = none ∧
    organize_file env (pre ++ [String.mk ('.' :: cs)]) root b fs =
      ⟨none, none, none, fs⟩ := by
  have hfe : fileExtension (String.mk ('.' :: cs)) = none := by
    show (afterLastDot cs).map (fun cs => String.mk cs) = none
    rw [afterLastDot_none cs hdot]
    rfl
  refine ⟨hfe, ?_⟩
  have hpe : pathExt (pre ++ [String.mk ('.' :: cs)]) = none := by
    unfold pathExt
    rw [List.getLast?_concat]
    exact hfe
  exact org_skip env b fs (moveTarget_none_of_noExt root hpe)

/-- Witness for C9's amended theorem on the concrete name `.txt`. -/
theorem C9_dotfile_skipped_witness :
    fileExtension (String.mk ('.' :: ['t', 'x', 't'])) = none ∧
    organize_file envOK (["r"] ++ [String.mk ('.' :: ['t', 'x', 't'])]) ["r"] false
        emptyFS = ⟨none, none, none, emptyFS⟩ :=
  C9_dotfile_skipped ['t', 'x', 't'] (by decide) envOK ["r"] ["r"] emptyFS false

end DirCleaner
